import Mathlib

/-!
Shallow embedding of the suivm version manager (src/version_manager.rs,
src/utils.rs, src/main.rs) and proofs about its version-lifecycle
operations.

The filesystem state under the base directory (`~/.suivm`) is modelled
explicitly:
  * `versionsDirExists` — whether the `versions/` directory itself exists;
  * `entries` — the directory entries directly under `versions/`
    (name plus whether the entry is a directory), empty when the
    directory is absent;
  * `binaries` — the set of version names V for which the file
    `versions/V/sui` exists;
  * `current` — the `current` symbolic link at the base-directory root:
    `none` when no link object is present, `some v` when a link whose
    target is `versions/v` is present (the program only ever creates
    links of that shape).

A crucial point of fidelity: Rust's `Path::exists()` FOLLOWS symbolic
links, so for the `current` link it reports true only when the link's
target still exists; a dangling link reports false. `fs::remove_file`
and `std::os::unix::fs::symlink` do NOT follow the link: removal deletes
the link object itself, and symlink creation fails with an I/O error
(EEXIST) whenever any object — including a dangling link — already sits
at the path.
-/

inductive VmError where
  | networkError
  | decodeError
  | versionNotFound
  | noCompatibleAsset
  | ioError
  | notInstalled
  | activeVersionConflict
  | notFound
  | invalidState
  | binaryMissing
  | unsupportedShell
deriving DecidableEq, Repr

/-- One directory entry directly under `versions/`. -/
structure DirEntry where
  name : String
  isDir : Bool
deriving DecidableEq, Repr

/-- The filesystem state under the base directory. -/
structure FsState where
  versionsDirExists : Bool
  entries : List DirEntry
  binaries : List String
  current : Option String
deriving DecidableEq, Repr

instance {ε α : Type} [DecidableEq ε] [DecidableEq α] : DecidableEq (Except ε α) :=
  fun a b =>
    match a, b with
    | .ok x, .ok y =>
      if h : x = y then .isTrue (by rw [h]) else .isFalse (fun hc => by cases hc; exact h rfl)
    | .ok _, .error _ => .isFalse (fun hc => by cases hc)
    | .error _, .ok _ => .isFalse (fun hc => by cases hc)
    | .error x, .error y =>
      if h : x = y then .isTrue (by rw [h]) else .isFalse (fun hc => by cases hc; exact h rfl)

/-- Path::exists() for `versions/<v>`: true when any entry (directory or
file) named `v` sits directly under `versions/`. -/
def dirEntryExists (s : FsState) (v : String) : Bool :=
  s.entries.any (fun e => e.name == v)

/-- Path::exists() for the `current` link. `exists()` follows the
symlink, so a present but dangling link reports false. -/
def currentLinkExists (s : FsState) : Bool :=
  match s.current with
  | some v => dirEntryExists s v
  | none => false

/-- SuiVersionManager::get_current_version. Checks `current_link.exists()`
(which follows the link), then reads the link target — always of the
shape `<base>/versions/<v>` — and takes its final path component. The
IoError branch (read_link failure) and the InvalidState branch (final
component not decodable) are unreachable for states of this model, where
`current` is always either absent or a link to `versions/<v>` with `v` a
decodable single path component. -/
def get_current_version (s : FsState) : Except VmError String :=
  match s.current with
  | some v => if dirEntryExists s v then .ok v else .error .notFound
  | none => .error .notFound

/-- SuiVersionManager::list_installed_versions: if `versions/` exists,
enumerate its entries and keep the names of those that are directories;
otherwise return the empty list. -/
def list_installed_versions (s : FsState) : List String :=
  if s.versionsDirExists then
    (s.entries.filter (fun e => e.isDir)).map (fun e => e.name)
  else []

/-- The entry `versions/<v>` exists and is a directory. -/
def versionDirIsDir (s : FsState) (v : String) : Bool :=
  s.versionsDirExists && s.entries.any (fun e => e.isDir && e.name == v)

/-- fs::remove_dir_all on `versions/<version>`: the entry and everything
inside it (in particular the `sui` binary) disappears; the `current`
link is not touched. -/
def removeVersion (s : FsState) (version : String) : FsState :=
  { s with entries := s.entries.filter (fun e => e.name != version),
           binaries := s.binaries.filter (fun b => b != version) }

/-- SuiVersionManager::uninstall_version: error if `versions/<version>`
does not exist; error if `get_current_version` succeeds with exactly
the same identifier; otherwise recursively delete the directory. -/
def uninstall_version (s : FsState) (version : String) :
    Except VmError Unit × FsState :=
  if !(dirEntryExists s version) then
    (.error .notInstalled, s)
  else
    match get_current_version s with
    | .ok current_version =>
      if current_version == version then
        (.error .activeVersionConflict, s)
      else
        (.ok (), removeVersion s version)
    | .error _ => (.ok (), removeVersion s version)

/-- SuiVersionManager::set_default_version, in source order:
1. error NotInstalled if `versions/<version>` does not exist;
2. if `current_link.exists()` (follows the link: false on a dangling
   link) then `fs::remove_file(current_link)`;
3. `symlink(version_dir, current_link)` — fails with an I/O error when
   any object (e.g. a dangling link skipped by step 2) is still present
   at `current`;
4. only then check `versions/<version>/sui`; error BinaryMissing if
   absent, with the link already replaced. -/
def set_default_version (s : FsState) (version : String) :
    Except VmError Unit × FsState :=
  if !(dirEntryExists s version) then
    (.error .notInstalled, s)
  else
    let s1 := if currentLinkExists s then { s with current := none } else s
    match s1.current with
    | some _ => (.error .ioError, s1)
    | none =>
      let s2 := { s1 with current := some version }
      if s2.binaries.contains version then
        (.ok (), s2)
      else
        (.error .binaryMissing, s2)

/-- Remote release asset (name, browser_download_url). -/
structure Asset where
  name : String
  url : String
deriving DecidableEq, Repr

/-- Remote release (tag_name plus ordered asset list). -/
structure Release where
  tag_name : String
  assets : List Asset
deriving DecidableEq, Repr

def listStartsWith : List Char → List Char → Bool
  | _, [] => true
  | [], _ :: _ => false
  | c :: t, n :: m => c == n && listStartsWith t m

def listHasSub : List Char → List Char → Bool
  | [], needle => listStartsWith [] needle
  | c :: t, needle => listStartsWith (c :: t) needle || listHasSub t needle

/-- str::contains for substring needles. -/
def strContains (hay needle : String) : Bool :=
  listHasSub hay.data needle.data

/-- The asset-selection predicate of download_version: the asset name
must contain both the platform marker "macos" and the architecture
marker "arm64" as substrings. -/
def assetCompatible (a : Asset) : Bool :=
  strContains a.name "macos" && strContains a.name "arm64"

/-- release.assets.into_iter().find(...): first compatible asset in
catalog order. -/
def selectAsset (assets : List Asset) : Option Asset :=
  assets.find? assetCompatible

/-- fs::create_dir_all(versions/<version>): ensures `versions/` and the
version directory exist (idempotent). -/
def installDir (s : FsState) (version : String) : FsState :=
  { s with versionsDirExists := true,
           entries :=
             if s.entries.any (fun e => e.name == version) then s.entries
             else s.entries ++ [⟨version, true⟩] }

/-- SuiVersionManager::download_version up to its filesystem effects:
find the release whose tag_name equals `version` exactly (else
VersionNotFound); select the first compatible asset (else
NoCompatibleAsset); only then create `versions/<version>` and perform
the download/extract/cleanup steps. The network transfer, archive
extraction and tgz removal are abstracted: on success the version
directory exists; the extracted contents are left unspecified. -/
def download_version (releases : List Release) (s : FsState)
    (version : String) : Except VmError Unit × FsState :=
  match releases.find? (fun r => r.tag_name == version) with
  | none => (.error .versionNotFound, s)
  | some release =>
    match selectAsset release.assets with
    | none => (.error .noCompatibleAsset, s)
    | some _ => (.ok (), installDir s version)

def asciiLowerChar (c : Char) : Char :=
  if 'A' ≤ c && c ≤ 'Z' then Char.ofNat (c.toNat + 32) else c

/-- str::to_lowercase, modelled on the ASCII range (the shell kinds this
program compares against are all ASCII; Unicode case mapping beyond
ASCII is not modelled). -/
def asciiLower (s : String) : String :=
  ⟨s.data.map asciiLowerChar⟩

/-- SuiVersionManager::get_shell_config: pure function of the base
directory and the shell kind; the match is performed on
shell.to_lowercase(). The source writes the "bash" | "zsh" arms as one
pattern alternation; here they are one boolean disjunction. -/
def get_shell_config (base_dir : String) (shell : String) :
    Except VmError String :=
  let bin_path := base_dir ++ "/current/bin"
  let sh := asciiLower shell
  if sh == "fish" then
    .ok ("set -gx PATH " ++ bin_path ++ " $PATH")
  else if sh == "bash" || sh == "zsh" then
    .ok ("export PATH=\"" ++ bin_path ++ ":$PATH\"")
  else
    .error .unsupportedShell

/-! Helper lemmas shared by several proofs. -/

/-- Once the first element satisfying `p` is returned by `find?`, it satisfies
`p`, occurs in the list, and every earlier element fails `p`. -/
theorem find?_first_match {α : Type} (p : α → Bool) :
    ∀ (l : List α) (a : α), l.find? p = some a →
      p a = true ∧ ∃ i, ∃ hi : i < l.length, l.get ⟨i, hi⟩ = a ∧
        ∀ j, ∀ hj : j < i, p (l.get ⟨j, Nat.lt_trans hj hi⟩) = false := by
  intro l
  induction l with
  | nil => intro a h; simp [List.find?] at h
  | cons x xs ih =>
    intro a h
    by_cases hx : p x = true
    · rw [List.find?_cons_of_pos _ hx] at h
      obtain rfl : x = a := by injection h
      exact ⟨hx, 0, by simp, rfl, fun j hj => absurd hj (Nat.not_lt_zero j)⟩
    · rw [List.find?_cons_of_neg _ (by simpa using hx)] at h
      obtain ⟨hpa, i, hi, hget, hfirst⟩ := ih a h
      refine ⟨hpa, i + 1, by simpa [Nat.succ_lt_succ_iff] using hi, by simpa using hget, ?_⟩
      intro j hj
      cases j with
      | zero => simpa using hx
      | succ k => simpa using hfirst k (Nat.lt_of_succ_lt_succ hj)

/-- When `versions/<V>` exists and the pre-existing `current` link, if any,
resolves, set_default_version replaces the link with one to `versions/<V>`
and then reports success or BinaryMissing according to the binary check. -/
theorem set_default_version_resolved (s : FsState) (V : String)
    (hins : dirEntryExists s V = true)
    (hlink : s.current = none ∨ currentLinkExists s = true) :
    set_default_version s V =
      ((if s.binaries.contains V then Except.ok () else Except.error .binaryMissing),
       { s with current := some V }) := by
  obtain ⟨ve, en, bi, cu⟩ := s
  cases cu with
  | none =>
    have hl : currentLinkExists ⟨ve, en, bi, none⟩ = false := rfl
    simp only [set_default_version, hins, hl, Bool.not_true, Bool.false_eq_true,
      if_false, if_true]
    cases hc : bi.contains V <;> simp [hc]
  | some w =>
    have hl : currentLinkExists ⟨ve, en, bi, some w⟩ = true := by
      rcases hlink with h | h
      · exact absurd h (by simp)
      · exact h
    simp only [set_default_version, hins, hl, Bool.not_true, Bool.false_eq_true,
      if_false, if_true]
    cases hc : bi.contains V <;> simp [hc]

/-! Theorems settling the claims. -/

/-- C2: if `versions/V` exists and V is read back from the `current` link as
the active version, uninstall fails with ActiveVersionConflict and the state
(in particular `versions/V`) is untouched. -/
theorem uninstall_active_conflict (s : FsState) (V : String)
    (hins : dirEntryExists s V = true)
    (hcur : get_current_version s = .ok V) :
    uninstall_version s V = (.error .activeVersionConflict, s) := by
  simp [uninstall_version, hins, hcur]

def sW2 : FsState := ⟨true, [⟨"v1", true⟩], ["v1"], some "v1"⟩

theorem uninstall_active_conflict_witness :
    (dirEntryExists sW2 "v1" = true ∧ get_current_version sW2 = .ok "v1") ∧
    uninstall_version sW2 "v1" = (.error .activeVersionConflict, sW2) :=
  ⟨by decide, uninstall_active_conflict sW2 "v1" (by decide) (by decide)⟩

/-- C3: when no release tag equals V (exact, case-sensitive comparison),
download_version fails with VersionNotFound and leaves the filesystem state
unchanged — in particular it creates nothing under `versions/`. -/
theorem install_absent_version_fails (releases : List Release) (s : FsState)
    (V : String) (habs : ∀ r ∈ releases, r.tag_name ≠ V) :
    download_version releases s V = (.error .versionNotFound, s) ∧
    (download_version releases s V).2.entries = s.entries := by
  have hfind : releases.find? (fun r => r.tag_name == V) = none :=
    List.find?_eq_none.mpr (fun r hr => by simpa using habs r hr)
  constructor
  · simp [download_version, hfind]
  · simp [download_version, hfind]

def relW3 : List Release := [⟨"v1.0.0", [⟨"sui-v1.0.0-macos-arm64.tgz", "u"⟩]⟩]

def sW3 : FsState := ⟨true, [], [], none⟩

theorem install_absent_version_fails_witness :
    (∀ r ∈ relW3, r.tag_name ≠ "v2.0.0") ∧
    download_version relW3 sW3 "v2.0.0" = (.error .versionNotFound, sW3) :=
  ⟨by decide, (install_absent_version_fails relW3 sW3 "v2.0.0" (by decide)).1⟩

/-- C5: list_installed_versions contains V exactly when `versions/V` exists
as a directory, and returns the empty list when `versions/` itself does not
exist. -/
theorem list_installed_matches_fs (s : FsState) (V : String) :
    (V ∈ list_installed_versions s ↔ versionDirIsDir s V = true) ∧
    (s.versionsDirExists = false → list_installed_versions s = []) := by
  constructor
  · unfold list_installed_versions versionDirIsDir
    cases h : s.versionsDirExists
    · simp
    · simp only [if_true, List.mem_map, List.mem_filter, Bool.true_and,
        List.any_eq_true, Bool.and_eq_true, beq_iff_eq]
      constructor
      · rintro ⟨e, ⟨he, hd⟩, hn⟩
        exact ⟨e, he, hd, hn⟩
      · rintro ⟨e, he, hd, hn⟩
        exact ⟨e, ⟨he, hd⟩, hn⟩
  · intro h
    simp [list_installed_versions, h]

def sW5 : FsState := ⟨false, [], [], none⟩

theorem list_installed_matches_fs_witness :
    sW5.versionsDirExists = false ∧ list_installed_versions sW5 = [] :=
  ⟨rfl, (list_installed_matches_fs sW5 "v1").2 rfl⟩

def sC6 : FsState := ⟨true, [⟨"v1", true⟩], [], some "vGone"⟩

/-- C6 counterexample: a `current` link object is present (it merely
dangles, its target directory having been removed out-of-band), yet
get_current_version fails with NotFound — the claim's "NotFound iff no
current link exists" is false, because Path::exists() follows the link. -/
theorem getActive_notFound_cex :
    sC6.current = some "vGone" ∧
    get_current_version sC6 = .error .notFound := by
  exact ⟨rfl, by decide⟩

/-- C6 (amended): get_current_version fails with NotFound exactly when the
`current` link is absent OR present but dangling (the existence test
follows the symlink); when the link is present and its target exists, the
call returns the link target's final path component. -/
theorem getActive_notFound_characterization (s : FsState) :
    (get_current_version s = .error .notFound ↔ currentLinkExists s = false) ∧
    (∀ v, s.current = some v → currentLinkExists s = true →
      get_current_version s = .ok v) := by
  obtain ⟨ve, en, bi, cu⟩ := s
  cases cu with
  | none => simp [get_current_version, currentLinkExists]
  | some w =>
    constructor
    · simp only [get_current_version, currentLinkExists]
      cases h : dirEntryExists ⟨ve, en, bi, some w⟩ w <;> simp [h]
    · intro v hv hlink
      obtain rfl : w = v := by injection hv
      have hd : dirEntryExists ⟨ve, en, bi, some w⟩ w = true := by
        simpa [currentLinkExists] using hlink
      simp [get_current_version, hd]

def sW6 : FsState := ⟨true, [⟨"v1", true⟩], [], some "v1"⟩

theorem getActive_notFound_characterization_witness :
    (sW6.current = some "v1" ∧ currentLinkExists sW6 = true) ∧
    get_current_version sW6 = .ok "v1" :=
  ⟨⟨rfl, by decide⟩,
   (getActive_notFound_characterization sW6).2 "v1" rfl (by decide)⟩

def sC1 : FsState := ⟨true, [⟨"v1", true⟩], ["v1"], some "v9"⟩

/-- C1 counterexample: `versions/v1` exists (with its binary), but the
pre-existing `current` link dangles; set_default_version then fails at
link creation and get_current_version afterwards does not return v1. -/
theorem setActive_roundtrip_cex :
    dirEntryExists sC1 "v1" = true ∧
    get_current_version (set_default_version sC1 "v1").2 ≠ .ok "v1" := by
  decide

/-- C1 (amended): if `versions/V` exists and the pre-existing `current`
link, if any, is not dangling, then set_default_version V followed by
get_current_version returns exactly V (even when the binary check makes
the activation itself report failure, the link already targets
`versions/V`). -/
theorem setActive_roundtrip_resolved (s : FsState) (V : String)
    (hins : dirEntryExists s V = true)
    (hlink : s.current = none ∨ currentLinkExists s = true) :
    get_current_version (set_default_version s V).2 = .ok V := by
  rw [set_default_version_resolved s V hins hlink]
  have hd : dirEntryExists { s with current := some V } V = true := by
    simpa [dirEntryExists] using hins
  simp [get_current_version, hd]

def sW1 : FsState := ⟨true, [⟨"v1", true⟩], ["v1"], none⟩

theorem setActive_roundtrip_resolved_witness :
    dirEntryExists sW1 "v1" = true ∧
    get_current_version (set_default_version sW1 "v1").2 = .ok "v1" :=
  ⟨by decide, setActive_roundtrip_resolved sW1 "v1" (by decide) (Or.inl rfl)⟩

def sC4 : FsState := ⟨true, [⟨"v1", true⟩], [], some "v9"⟩

/-- C4 counterexample: `versions/v1` exists without its binary, but the
pre-existing `current` link dangles; set_default_version then fails with
an I/O error at link creation — not with BinaryMissing — and the link is
not replaced. -/
theorem setActive_binary_check_cex :
    (dirEntryExists sC4 "v1" = true ∧ sC4.binaries.contains "v1" = false) ∧
    (set_default_version sC4 "v1").1 = .error .ioError ∧
    (set_default_version sC4 "v1").1 ≠ .error .binaryMissing ∧
    (set_default_version sC4 "v1").2.current ≠ some "v1" := by
  decide

/-- C4 (amended): when `versions/V` exists, its expected binary is absent,
and the pre-existing `current` link (if any) is not dangling,
set_default_version fails with BinaryMissing and nevertheless leaves the
`current` link already replaced, pointing at `versions/V`. -/
theorem setActive_binary_check_after_link (s : FsState) (V : String)
    (hins : dirEntryExists s V = true)
    (hbin : s.binaries.contains V = false)
    (hlink : s.current = none ∨ currentLinkExists s = true) :
    (set_default_version s V).1 = .error .binaryMissing ∧
    (set_default_version s V).2.current = some V := by
  rw [set_default_version_resolved s V hins hlink]
  have hmem : V ∉ s.binaries := by simpa using hbin
  simp [hmem]

def sW4 : FsState := ⟨true, [⟨"v1", true⟩], [], none⟩

theorem setActive_binary_check_after_link_witness :
    (dirEntryExists sW4 "v1" = true ∧ sW4.binaries.contains "v1" = false) ∧
    (set_default_version sW4 "v1").1 = .error .binaryMissing ∧
    (set_default_version sW4 "v1").2.current = some "v1" :=
  ⟨by decide,
   setActive_binary_check_after_link sW4 "v1" (by decide) (by decide) (Or.inl rfl)⟩

def sC9 : FsState := ⟨true, [⟨"v2", true⟩], [], none⟩

/-- C9 counterexample: `versions/v2` exists but its binary is absent, so
already the first set_default_version call reports failure — the claim's
"succeeds both times for every installed version" is false. -/
theorem setActive_twice_cex :
    dirEntryExists sC9 "v2" = true ∧
    (set_default_version sC9 "v2").1 ≠ .ok () := by
  decide

/-- C9 (amended): for an installed V whose expected binary is present, and
whose pre-existing `current` link (if any) is not dangling, calling
set_default_version twice in a row succeeds both times and leaves the
single `current` link pointing at `versions/V` (the second call removes
the existing link before recreating it). -/
theorem setActive_twice_idempotent (s : FsState) (V : String)
    (hins : dirEntryExists s V = true)
    (hbin : s.binaries.contains V = true)
    (hlink : s.current = none ∨ currentLinkExists s = true) :
    (set_default_version s V).1 = .ok () ∧
    (set_default_version (set_default_version s V).2 V).1 = .ok () ∧
    (set_default_version (set_default_version s V).2 V).2.current = some V := by
  have h1 := set_default_version_resolved s V hins hlink
  have hins2 : dirEntryExists { s with current := some V } V = true := by
    simpa [dirEntryExists] using hins
  have hlink2 : ({ s with current := some V } : FsState).current = none ∨
      currentLinkExists { s with current := some V } = true :=
    Or.inr (by simp [currentLinkExists, hins2])
  have h2 := set_default_version_resolved { s with current := some V } V hins2 hlink2
  rw [h1, if_pos hbin]
  refine ⟨rfl, ?_, ?_⟩
  · show (set_default_version { s with current := some V } V).1 = .ok ()
    rw [h2, if_pos (show ({ s with current := some V } : FsState).binaries.contains V = true
      from hbin)]
  · show (set_default_version { s with current := some V } V).2.current = some V
    rw [h2]

def sW9 : FsState := ⟨true, [⟨"v1", true⟩], ["v1"], none⟩

theorem setActive_twice_idempotent_witness :
    (dirEntryExists sW9 "v1" = true ∧ sW9.binaries.contains "v1" = true) ∧
    (set_default_version sW9 "v1").1 = .ok () ∧
    (set_default_version (set_default_version sW9 "v1").2 "v1").1 = .ok () ∧
    (set_default_version (set_default_version sW9 "v1").2 "v1").2.current = some "v1" :=
  ⟨by decide,
   setActive_twice_idempotent sW9 "v1" (by decide) (by decide) (Or.inl rfl)⟩

/-- C10: with a dangling `current` link (target directory removed
out-of-band), set_default_version fails with an I/O error for every
installed version V — even one whose binary is present — and leaves the
state, including the dangling link, unchanged: the follows-symlink
existence check skips the removal and the link creation collides. -/
theorem setActive_dangling_link_io_error (s : FsState) (V w : String)
    (hcur : s.current = some w)
    (hdangle : dirEntryExists s w = false)
    (hins : dirEntryExists s V = true)
    (_hbin : s.binaries.contains V = true) :
    set_default_version s V = (.error .ioError, s) := by
  have hlink : currentLinkExists s = false := by
    simp [currentLinkExists, hcur, hdangle]
  simp [set_default_version, hins, hlink, hcur]

def sW10 : FsState := ⟨true, [⟨"v1", true⟩], ["v1"], some "v0"⟩

theorem setActive_dangling_link_io_error_witness :
    (sW10.current = some "v0" ∧ dirEntryExists sW10 "v0" = false ∧
     dirEntryExists sW10 "v1" = true ∧ sW10.binaries.contains "v1" = true) ∧
    set_default_version sW10 "v1" = (.error .ioError, sW10) :=
  ⟨by decide,
   setActive_dangling_link_io_error sW10 "v1" "v0" rfl (by decide) (by decide) (by decide)⟩

/-- C7: the asset chosen for a matched release is the first one, in
catalog order, whose name contains both the "macos" and "arm64" markers
as substrings; when no asset of the matched release satisfies both,
download_version fails with NoCompatibleAsset. -/
theorem install_selects_first_compatible_asset (assets : List Asset) :
    (∀ a, selectAsset assets = some a →
      assetCompatible a = true ∧
      ∃ i, ∃ hi : i < assets.length, assets.get ⟨i, hi⟩ = a ∧
        ∀ j, ∀ hj : j < i, assetCompatible (assets.get ⟨j, Nat.lt_trans hj hi⟩) = false) ∧
    (selectAsset assets = none → ∀ a ∈ assets, assetCompatible a = false) ∧
    (∀ (releases : List Release) (s : FsState) (V : String) (r : Release),
      releases.find? (fun x => x.tag_name == V) = some r →
      selectAsset r.assets = none →
      download_version releases s V = (.error .noCompatibleAsset, s)) := by
  refine ⟨?_, ?_, ?_⟩
  · intro a h
    exact find?_first_match assetCompatible assets a h
  · intro h a ha
    simpa using List.find?_eq_none.mp h a ha
  · intro releases s V r hfind hsel
    simp [download_version, hfind, hsel]

def assetsW7 : List Asset :=
  [⟨"sui-v1.2.0-ubuntu-x86_64.tgz", "u1"⟩, ⟨"sui-v1.2.0-macos-arm64.tgz", "u2"⟩]

theorem install_selects_first_compatible_asset_witness :
    selectAsset assetsW7 = some ⟨"sui-v1.2.0-macos-arm64.tgz", "u2"⟩ ∧
    assetCompatible ⟨"sui-v1.2.0-macos-arm64.tgz", "u2"⟩ = true :=
  ⟨by decide,
   ((install_selects_first_compatible_asset assetsW7).1
     ⟨"sui-v1.2.0-macos-arm64.tgz", "u2"⟩ (by decide)).1⟩

/-- C8 counterexample: the shell kind "Fish" lies outside the closed set
{fish, bash, zsh}, yet get_shell_config succeeds (the source lowercases
the argument before matching) instead of failing with UnsupportedShell. -/
theorem shell_config_case_cex :
    (("Fish" : String) ≠ "fish" ∧ ("Fish" : String) ≠ "bash" ∧
     ("Fish" : String) ≠ "zsh") ∧
    get_shell_config "/home/u/.suivm" "Fish" ≠ .error .unsupportedShell ∧
    get_shell_config "/home/u/.suivm" "Fish" =
      .ok "set -gx PATH /home/u/.suivm/current/bin $PATH" := by
  decide

/-- C8 (amended): get_shell_config is a pure function of the base
directory and the shell kind, matched after lowercasing: a kind whose
lowercase form is "fish" yields the fish set -gx line prepending
`<base_dir>/current/bin` to PATH, a kind whose lowercase form is "bash"
or "zsh" yields the POSIX export form for the same path, and any kind
whose lowercase form is outside this set fails with UnsupportedShell. -/
theorem shell_config_lowercase_spec (base shell : String) :
    (asciiLower shell = "fish" →
      get_shell_config base shell =
        .ok ("set -gx PATH " ++ (base ++ "/current/bin") ++ " $PATH")) ∧
    ((asciiLower shell = "bash" ∨ asciiLower shell = "zsh") →
      get_shell_config base shell =
        .ok ("export PATH=\"" ++ (base ++ "/current/bin") ++ ":$PATH\"")) ∧
    ((asciiLower shell ≠ "fish" ∧ asciiLower shell ≠ "bash" ∧
        asciiLower shell ≠ "zsh") →
      get_shell_config base shell = .error .unsupportedShell) := by
  refine ⟨?_, ?_, ?_⟩
  · intro h
    simp [get_shell_config, h]
  · rintro (h | h) <;> simp [get_shell_config, h]
  · rintro ⟨h1, h2, h3⟩
    simp [get_shell_config, h1, h2, h3]

theorem shell_config_lowercase_spec_witness :
    asciiLower "fish" = "fish" ∧
    get_shell_config "/home/u/.suivm" "fish" =
      .ok ("set -gx PATH " ++ ("/home/u/.suivm" ++ "/current/bin") ++ " $PATH") :=
  ⟨by decide, (shell_config_lowercase_spec "/home/u/.suivm" "fish").1 (by decide)⟩
